import Mathlib

/-!
# Verification of the caddy-cache handler (handler.go)

Shallow embedding of `handler.go` from the `kofj/caddy-cache` repository.
Header maps are association lists from header names to ordered value lists
(Go's `http.Header`); the external collaborators — the cacheability policy,
the content store, the downstream pipe — enter as explicit oracle inputs.
Bodies are byte streams, modelled as lists of chunks of naturals.
-/

namespace CaddyCache

/-- A header map: ordered association of header name to its ordered list of
values.  Go's `http.Header` is a map with unique keys; uniqueness is carried
as a hypothesis (`Nodup`) where a theorem needs it. -/
abbrev HeaderMap := List (String × List String)

/-- Map lookup: `m[k]` with presence. `none` models a missing key (a `nil`
slice in Go); `reflect.DeepEqual` distinguishes `nil` from any non-nil
slice, which the `Option` layer mirrors. -/
def hLookup (m : HeaderMap) (k : String) : Option (List String) :=
  m.lookup k

/-- Embeds `delete(headers, k)`: remove the key from the map. -/
def hErase (m : HeaderMap) (k : String) : HeaderMap :=
  m.filter (fun p => p.1 != k)

/-- The incoming `*http.Request`: the fields `handler.go` reads. -/
structure HttpRequest where
  Method : String
  Host : String
  Path : String
  RawQuery : String
  Header : HeaderMap

/-- The cache entry's request snapshot (`Request{HeaderMap: r.Header}`). -/
structure Request where
  HeaderMap : HeaderMap
deriving DecidableEq

/-- The cache entry's stored response.  `Body` is a handle (identifier) of a
content sink/source in the external store, `none` when the entry carries no
body. -/
structure Response where
  HeaderMap : HeaderMap
  Code : Nat
  Body : Option Nat
deriving DecidableEq

/-- Embeds `HttpCacheEntry`, the unit stored in the cache. -/
structure HttpCacheEntry where
  isPublic : Bool
  Expiration : Nat
  Request : Request
  Response : Response
deriving DecidableEq

/-- Handler configuration: the optional status-indicator header name
(empty string = not configured). -/
structure Config where
  StatusHeader : String

/-- The real client response writer: header state (`w.Header()`, absent key
= empty list), written status, body bytes written so far. -/
structure RespWriter where
  header : String → List String
  status : Option Nat
  body : List Nat

/-- Embeds `w.Header().Set(k, v)`: replace the value list of `k` by `[v]`. -/
def hSet (w : String → List String) (k v : String) : String → List String :=
  fun q => if q = k then [v] else w q

/-- Embeds `w.Header().Add(k, v)`: append `v` to the value list of `k`. -/
def hAdd (w : String → List String) (k v : String) : String → List String :=
  fun q => if q = k then w q ++ [v] else w q

/-- The inner loop of `HandleCachedResponse`: `for _, v := range values {
w.Header().Add(k, v) }`. -/
def addValues (w : String → List String) (k : String) : List String → (String → List String)
  | [] => w
  | v :: vs => addValues (hAdd w k v) k vs

/-- The outer loop of `HandleCachedResponse`: `for k, values := range
previous.Response.HeaderMap { ... }`. -/
def replayHeaders (w : String → List String) : HeaderMap → (String → List String)
  | [] => w
  | (k, vs) :: rest => replayHeaders (addValues w k vs) rest

/-- Embeds `getKey` (handler.go:22-31).  `encode` stands for
`r.URL.Query().Encode()` as a function of the raw query string: parsing
and re-encoding net/url semantics are outside this file, so every theorem
quantifies over `encode`. -/
def getKey (encode : String → String) (r : HttpRequest) : String :=
  let key := r.Method ++ " " ++ r.Host ++ r.Path
  let q := encode r.RawQuery
  if q.length > 0 then key ++ "?" ++ q else key

/-- Embeds `matchesRequest` (handler.go:36-54).  Returns the predicate the store
evaluates on stored entries.  Only `vary[0]` is read; Go would panic on a
present key with an empty value slice, a state `http.Header` never
produces, so the head is taken with a default. -/
def matchesRequest (r : HttpRequest) : HttpCacheEntry → Bool :=
  fun entry =>
    match hLookup entry.Response.HeaderMap "Vary" with
    | none => true
    | some vary =>
      ((vary.headD "").splitOn ",").all fun searchedHeader =>
        let sh := searchedHeader.trim
        decide (hLookup entry.Request.HeaderMap sh = hLookup r.Header sh)

/-- Embeds `AddStatusHeaderIfConfigured` (handler.go:56-60). -/
def AddStatusHeaderIfConfigured (cfg : Config) (w : RespWriter) (status : String) : RespWriter :=
  if cfg.StatusHeader ≠ "" then
    { w with header := hSet w.header cfg.StatusHeader status }
  else w

/-- Embeds `RemoveStatusHeaderIfConfigured` (handler.go:66-71). -/
def RemoveStatusHeaderIfConfigured (cfg : Config) (headers : HeaderMap) : HeaderMap :=
  if cfg.StatusHeader ≠ "" then hErase headers cfg.StatusHeader else headers

/-- Embeds `HandleCachedResponse` (handler.go:73-85): mark "hit", replay stored
headers, write the stored status, copy the stored body from a fresh reader
(`readBody` is the store's `GetReader` contents for a body handle), and
return the stored code. -/
def HandleCachedResponse (cfg : Config) (readBody : Nat → List Nat)
    (w : RespWriter) (previous : HttpCacheEntry) : RespWriter × Nat :=
  let w1 := AddStatusHeaderIfConfigured cfg w "hit"
  let w2 := { w1 with header := replayHeaders w1.header previous.Response.HeaderMap }
  let w3 := { w2 with status := some previous.Response.Code }
  let w4 :=
    match previous.Response.Body with
    | none => w3
    | some b => { w3 with body := w3.body ++ readBody b }
  (w4, previous.Response.Code)

/-- The headers event of the pipe (`<-pipe.HeaderChannel()`): final status
code and the header snapshot committed by the downstream responder. -/
structure UpstreamHeaders where
  StatusCode : Nat
  Header : HeaderMap

/-- The background task started by the miss path after the cacheability
decision: drain-and-discard, or pump-into-sink for a given sink handle. -/
inductive BgTask
  | drain
  | pump (sink : Nat)
deriving DecidableEq

/-- Result of one `HandleNonCachedResponse` call: the writer after the
"miss" marking, the returned entry or error, the key passed to
`Cache.NewContent` when that call was made, and the background task
started. -/
structure MissOutcome where
  writer : RespWriter
  result : Except String HttpCacheEntry
  newContentCalled : Option String
  bg : Option BgTask

/-- Embeds `HandleNonCachedResponse` (handler.go:87-157), as a function of the
oracle inputs: the pipe's headers event, the cacheability policy's answer
(`getCacheableStatus`), and the store's `NewContent` (sink handle or
error).  `now` is the clock read for the speculative default expiration. -/
def HandleNonCachedResponse (cfg : Config) (encode : String → String)
    (w : RespWriter) (r : HttpRequest) (headers : UpstreamHeaders)
    (policy : Except String (Bool × Nat))
    (newContent : String → Except String Nat) (now : Nat) : MissOutcome :=
  let w1 := AddStatusHeaderIfConfigured cfg w "miss"
  match policy with
  | .error e =>
      { writer := w1, result := .error e, newContentCalled := none, bg := none }
  | .ok (isCacheable, expirationTime) =>
    if !isCacheable then
      { writer := w1
        result := .ok
          { isPublic := false
            Expiration := now + 3600
            Request := { HeaderMap := r.Header }
            Response :=
              { HeaderMap := RemoveStatusHeaderIfConfigured cfg headers.Header
                Code := headers.StatusCode
                Body := none } }
        newContentCalled := none
        bg := some .drain }
    else
      match newContent (getKey encode r) with
      | .error e =>
          { writer := w1, result := .error e,
            newContentCalled := some (getKey encode r), bg := none }
      | .ok bodyWriter =>
          { writer := w1
            result := .ok
              { isPublic := true
                Expiration := expirationTime
                Request := { HeaderMap := r.Header }
                Response :=
                  { HeaderMap := RemoveStatusHeaderIfConfigured cfg headers.Header
                    Code := headers.StatusCode
                    Body := some bodyWriter } }
            newContentCalled := some (getKey encode r)
            bg := some (.pump bodyWriter) }

/-- State of a content sink: bytes written so far and whether `Close` has
been called. -/
structure SinkState where
  content : List Nat
  closed : Bool
deriving DecidableEq

/-- The pump loop (handler.go:149-154): `for content := range
pipe.BodyChannel() { bodyWriter.Write(content) }; bodyWriter.Close()`. -/
def pumpBody (s : SinkState) : List (List Nat) → SinkState
  | [] => { s with closed := true }
  | c :: rest => pumpBody { s with content := s.content ++ c } rest

/-- Final sink state produced by the background task on a given body chunk
stream: the drain task (handler.go:124-127) writes to no sink at all,
the pump task writes every chunk and closes. -/
def runBg : Option BgTask → List (List Nat) → Option (Nat × SinkState)
  | some (.pump sink), chunks => some (sink, pumpBody { content := [], closed := false } chunks)
  | _, _ => none

/-- All the oracle inputs one `ServeHTTP` call consumes. -/
structure ServeCtx where
  cfg : Config
  encode : String → String
  now : Nat
  /-- Result of `shouldUseCache r` (external eligibility predicate). -/
  shouldUse : Bool
  /-- Result of `handler.Next.ServeHTTP(w, r)` on the skip path. -/
  nextStatus : Nat
  nextErr : Option String
  /-- the store's current value for the key, handed to `GetOrSet`. -/
  stored : Option HttpCacheEntry
  r : HttpRequest
  w0 : RespWriter
  upstream : UpstreamHeaders
  policy : Except String (Bool × Nat)
  newContent : String → Except String Nat
  readBody : Nat → List Nat

/-- Observable result of the producer callback: the replacement entry (or
none), the error, the `returnedStatusCode` after the callback ran, whether
a miss-path end channel was recorded for awaiting, which path ran, the
writer state, and the miss path's store call / background task. -/
structure ProducerOut where
  replacement : Option HttpCacheEntry
  err : Option String
  status : Nat
  endChannelRegistered : Bool
  missRan : Bool
  hitRan : Bool
  writer : RespWriter
  newContentCalled : Option String
  bg : Option BgTask

/-- The producer callback `ServeHTTP` passes to `Cache.GetOrSet`
(handler.go:167-182): miss path when no previous entry exists or it is
private, hit path against the real writer otherwise.
`returnedStatusCode` starts at 500 (`http.StatusInternalServerError`) and
is updated only when a branch produces a real code. -/
def producerCallback (c : ServeCtx) (previous : Option HttpCacheEntry) : ProducerOut :=
  let missCase : ProducerOut :=
    let m := HandleNonCachedResponse c.cfg c.encode c.w0 c.r c.upstream c.policy c.newContent c.now
    match m.result with
    | .error e =>
        { replacement := none, err := some e, status := 500
          endChannelRegistered := false, missRan := true, hitRan := false
          writer := m.writer, newContentCalled := m.newContentCalled, bg := m.bg }
    | .ok newEntry =>
        { replacement := some newEntry, err := none, status := newEntry.Response.Code
          endChannelRegistered := true, missRan := true, hitRan := false
          writer := m.writer, newContentCalled := m.newContentCalled, bg := m.bg }
  match previous with
  | none => missCase
  | some p =>
    if !p.isPublic then missCase
    else
      let w1 := AddStatusHeaderIfConfigured c.cfg c.w0 "hit"
      let hc := HandleCachedResponse c.cfg c.readBody w1 p
      { replacement := none, err := none, status := hc.2
        endChannelRegistered := false, missRan := false, hitRan := true
        writer := hc.1, newContentCalled := none, bg := none }

/-- Modelled from the spec: `store.getOrPopulate(key, matchFn, producerFn)`
of `Cache.GetOrSet`, whose implementation is outside `handler.go`.  The
store hands the producer the previously stored entry when it satisfies the
match predicate (or none), runs the producer once, adopts a non-nil
replacement and otherwise keeps its value, and reports the producer's
error. -/
def GetOrSet (stored : Option HttpCacheEntry) (matchFn : HttpCacheEntry → Bool)
    (producer : Option HttpCacheEntry → ProducerOut) :
    ProducerOut × Option HttpCacheEntry :=
  let previous :=
    match stored with
    | some e => if matchFn e then some e else none
    | none => none
  let out := producer previous
  (out, match out.replacement with
        | some e => some e
        | none => stored)

/-- Observable result of one `ServeHTTP` call. -/
structure ServeOutcome where
  status : Nat
  err : Option String
  replacement : Option HttpCacheEntry
  storedAfter : Option HttpCacheEntry
  endChannelRegistered : Bool
  missRan : Bool
  hitRan : Bool
  writer : RespWriter
  newContentCalled : Option String
  bg : Option BgTask

/-- Embeds `ServeHTTP` (handler.go:159-193): skip path when ineligible, else
`GetOrSet` with the key, the matcher, and the producer callback; the
await of the recorded end channel is pure synchronisation and leaves no
functional trace (its ordering content lives in the event model below). -/
def ServeHTTP (c : ServeCtx) : ServeOutcome :=
  if !c.shouldUse then
    let w1 := AddStatusHeaderIfConfigured c.cfg c.w0 "skip"
    { status := c.nextStatus, err := c.nextErr, replacement := none
      storedAfter := c.stored, endChannelRegistered := false
      missRan := false, hitRan := false, writer := w1
      newContentCalled := none, bg := none }
  else
    let res := GetOrSet c.stored (matchesRequest c.r) (producerCallback c)
    { status := res.1.status, err := res.1.err, replacement := res.1.replacement
      storedAfter := res.2, endChannelRegistered := res.1.endChannelRegistered
      missRan := res.1.missRan, hitRan := res.1.hitRan, writer := res.1.writer
      newContentCalled := res.1.newContentCalled, bg := res.1.bg }

/-! ## Event model of the miss-path synchronisation

Events of one cacheable miss, and the ordering edges guaranteed by the
code's goroutine program order and channel handoffs (handler.go:100-105,
149-154, 184-190) together with the splitter contract, modelled from the
spec: the body event stream closes when the responder finishes, and the
responder invocation `pipe.handle()` returns only after that. -/

/-- Events of one cacheable miss. -/
inductive Ev
  /-- the responder invocation `pipe.handle()` returns (handler.go:102). -/
  | handleRet
  /-- Event of the send `endChannel <- struct\x7b\x7d\x7b\x7d` (handler.go:104). -/
  | endSend
  /-- Event of the receive `<-endChannel` completing (handler.go:186). -/
  | endRecv
  /-- Event of `ServeHTTP` returning (handler.go:192). -/
  | serveRet
  /-- the pipe's body channel is closed. -/
  | bodyChanClosed
  /-- the pump's `range` loop exits (handler.go:150-152). -/
  | pumpExit
  /-- Event of `bodyWriter.Close()` (handler.go:153). -/
  | sinkClosed
deriving DecidableEq

/-- Guaranteed ordering edges: goroutine program order and channel
synchronisation. -/
def evEdge : Ev → Ev → Bool
  -- splitter contract (spec §4.3): the body stream closes before the
  -- responder invocation returns
  | .bodyChanClosed, .handleRet => true
  -- program order in the fetch goroutine (handler.go:100-105)
  | .handleRet, .endSend => true
  -- channel handoff (handler.go:104 → handler.go:186)
  | .endSend, .endRecv => true
  -- program order in ServeHTTP (handler.go:186 → handler.go:192)
  | .endRecv, .serveRet => true
  -- the pump's range loop can only exit once the channel is closed
  | .bodyChanClosed, .pumpExit => true
  -- program order in the pump goroutine (handler.go:152 → handler.go:153)
  | .pumpExit, .sinkClosed => true
  | _, _ => false

/-- Happens-before: the reflexive-transitive closure of the guaranteed
edges.  `hb a b` means every execution orders `a` before `b`. -/
def hb (a b : Ev) : Prop :=
  Relation.ReflTransGen (fun x y => evEdge x y = true) a b

/-! ## Helper lemmas -/

theorem hLookup_cons (a : String × List String) (m : HeaderMap) (k : String) :
    hLookup (a :: m) k = if k = a.1 then some a.2 else hLookup m k := by
  obtain ⟨k0, vs⟩ := a
  by_cases h : k = k0
  · simp [hLookup, List.lookup, h]
  · have hb2 : (k == k0) = false := beq_eq_false_iff_ne.mpr h
    simp [hLookup, List.lookup, hb2, h]

theorem hLookup_eq_none (m : HeaderMap) (k : String) (h : k ∉ m.map Prod.fst) :
    hLookup m k = none := by
  induction m with
  | nil => rfl
  | cons a m ih =>
    simp only [List.map_cons, List.mem_cons, not_or] at h
    rw [hLookup_cons, if_neg h.1]
    exact ih h.2

theorem hLookup_hErase (m : HeaderMap) (k : String) :
    hLookup (hErase m k) k = none := by
  induction m with
  | nil => rfl
  | cons a m ih =>
    by_cases h : a.1 = k
    · simpa [hErase, List.filter_cons, h] using ih
    · rw [hErase, List.filter_cons] at *
      simpa [h, hLookup_cons, Ne.symm h] using ih

theorem addValues_apply (w : String → List String) (k : String) (vs : List String)
    (q : String) : addValues w k vs q = if q = k then w q ++ vs else w q := by
  induction vs generalizing w with
  | nil => by_cases h : q = k <;> simp [addValues, h]
  | cons v vs ih =>
    rw [addValues, ih]
    by_cases h : q = k
    · subst h
      simp [hAdd]
    · simp [hAdd, h]

theorem replayHeaders_apply (m : HeaderMap) (w : String → List String) (k : String)
    (hnd : (m.map Prod.fst).Nodup) :
    replayHeaders w m k = w k ++ (hLookup m k).getD [] := by
  induction m generalizing w with
  | nil => simp [replayHeaders, hLookup, List.lookup]
  | cons a m ih =>
    obtain ⟨k0, vs⟩ := a
    simp only [List.map_cons, List.nodup_cons] at hnd
    rw [replayHeaders, ih _ hnd.2, addValues_apply, hLookup_cons]
    by_cases h : k = k0
    · subst h
      rw [if_pos rfl, if_pos rfl, hLookup_eq_none m k hnd.1]
      simp
    · rw [if_neg h, if_neg h]

theorem pumpBody_spec (chunks : List (List Nat)) (acc : List Nat) (b : Bool) :
    pumpBody { content := acc, closed := b } chunks =
      { content := acc ++ chunks.flatten, closed := true } := by
  induction chunks generalizing acc with
  | nil => simp [pumpBody]
  | cons c rest ih => simp [pumpBody, ih]

theorem addStatus_header_idem (cfg : Config) (w : RespWriter) (s : String) :
    AddStatusHeaderIfConfigured cfg (AddStatusHeaderIfConfigured cfg w s) s =
      AddStatusHeaderIfConfigured cfg w s := by
  unfold AddStatusHeaderIfConfigured
  split
  · congr 1
    funext q
    by_cases h : q = cfg.StatusHeader <;> simp [hSet, h]
  · rfl

theorem addStatus_body (cfg : Config) (w : RespWriter) (s : String) :
    (AddStatusHeaderIfConfigured cfg w s).body = w.body := by
  unfold AddStatusHeaderIfConfigured; split <;> rfl

/-! ## Claims -/

/-- C1: the match predicate returns true unconditionally when the stored
response has no Vary header; otherwise it returns true exactly when, for
every header name obtained by splitting the Vary value on commas and
trimming whitespace, the ordered value list on the stored request snapshot
equals the ordered value list on the current request (`Option` equality:
both-absent equal, one-sided presence or any list difference is a
mismatch that makes the predicate false). -/
theorem matchesRequest_vary_semantics (r : HttpRequest) (entry : HttpCacheEntry) :
    (hLookup entry.Response.HeaderMap "Vary" = none → matchesRequest r entry = true) ∧
    (∀ v rest, hLookup entry.Response.HeaderMap "Vary" = some (v :: rest) →
      (matchesRequest r entry = true ↔
        ∀ name ∈ (v.splitOn ",").map String.trim,
          hLookup entry.Request.HeaderMap name = hLookup r.Header name)) := by
  constructor
  · intro h
    simp [matchesRequest, h]
  · intro v rest h
    simp only [matchesRequest, h, List.headD_cons, List.all_eq_true]
    constructor
    · intro hall name hname
      rw [List.mem_map] at hname
      obtain ⟨x, hx, rfl⟩ := hname
      simpa using hall x hx
    · intro hall x hx
      simpa using hall x.trim (List.mem_map_of_mem _ hx)

/-- Witness for C1: a stored entry with `Vary: Accept, X-Lang` and equal
value lists on both sides matches. -/
theorem matchesRequest_vary_semantics_witness :
    matchesRequest
      { Method := "GET", Host := "example.com", Path := "/a", RawQuery := ""
        Header := [("Accept", ["application/json"]), ("X-Lang", ["en", "fr"])] }
      { isPublic := true, Expiration := 0
        Request := { HeaderMap := [("Accept", ["application/json"]), ("X-Lang", ["en", "fr"])] }
        Response := { HeaderMap := [("Vary", ["Accept, X-Lang"])], Code := 200, Body := none } }
      = true :=
  ((matchesRequest_vary_semantics _ _).2 "Accept, X-Lang" [] (by decide)).mpr
    (fun _ _ => rfl)

/-- C10: the match predicate reads only the first value of the stored
response's Vary header list: two entries whose Vary lists share the first
value and whose request snapshots agree produce the same match result,
whatever the later Vary values say. -/
theorem matchesRequest_reads_only_first_vary (r : HttpRequest)
    (e1 e2 : HttpCacheEntry) (v : String) (rest1 rest2 : List String)
    (h1 : hLookup e1.Response.HeaderMap "Vary" = some (v :: rest1))
    (h2 : hLookup e2.Response.HeaderMap "Vary" = some (v :: rest2))
    (hreq : e1.Request.HeaderMap = e2.Request.HeaderMap) :
    matchesRequest r e1 = matchesRequest r e2 := by
  simp [matchesRequest, h1, h2, hreq]

/-- Witness for C10: an entry whose second Vary value names a header
(`X-Skipped`) that differs between snapshot and request still matches
exactly like the entry carrying only the first value. -/
theorem matchesRequest_reads_only_first_vary_witness :
    matchesRequest
      { Method := "GET", Host := "h", Path := "/", RawQuery := ""
        Header := [("Accept", ["a"]), ("X-Skipped", ["now"])] }
      { isPublic := true, Expiration := 0
        Request := { HeaderMap := [("Accept", ["a"]), ("X-Skipped", ["before"])] }
        Response := { HeaderMap := [("Vary", ["Accept", "X-Skipped"])], Code := 200, Body := none } }
    = matchesRequest
      { Method := "GET", Host := "h", Path := "/", RawQuery := ""
        Header := [("Accept", ["a"]), ("X-Skipped", ["now"])] }
      { isPublic := true, Expiration := 0
        Request := { HeaderMap := [("Accept", ["a"]), ("X-Skipped", ["before"])] }
        Response := { HeaderMap := [("Vary", ["Accept"])], Code := 200, Body := none } } :=
  matchesRequest_reads_only_first_vary _ _ _ "Accept" ["X-Skipped"] []
    (by decide) (by decide) rfl

/-- C8: the cache key is a function of method, host, path and the encoded
query alone: two requests agreeing on those four produce the identical key
whatever their headers; `getKey` is a total Lean function, hence pure and
never failing. -/
theorem getKey_ignores_headers (encode : String → String) (r1 r2 : HttpRequest)
    (hm : r1.Method = r2.Method) (hh : r1.Host = r2.Host)
    (hp : r1.Path = r2.Path) (hq : r1.RawQuery = r2.RawQuery) :
    getKey encode r1 = getKey encode r2 := by
  simp [getKey, hm, hh, hp, hq]

/-- Witness for C8: two requests differing only in their headers (also in
Vary-relevant ones) share the key. -/
theorem getKey_ignores_headers_witness :
    getKey id
      { Method := "GET", Host := "example.com", Path := "/p", RawQuery := "a=1"
        Header := [("Accept", ["text/html"]), ("Vary", ["Accept"])] }
    = getKey id
      { Method := "GET", Host := "example.com", Path := "/p", RawQuery := "a=1"
        Header := [("Accept", ["application/json"])] } :=
  getKey_ignores_headers id _ _ rfl rfl rfl rfl

/-- C9: whenever a status-indicator header name is configured, any entry
the miss path hands back to the store — cacheable or not — has that header
absent from its stored response header snapshot. -/
theorem missPath_strips_status_header (cfg : Config) (encode : String → String)
    (w : RespWriter) (r : HttpRequest) (headers : UpstreamHeaders)
    (policy : Except String (Bool × Nat)) (newContent : String → Except String Nat)
    (now : Nat) (entry : HttpCacheEntry)
    (hcfg : cfg.StatusHeader ≠ "")
    (hres : (HandleNonCachedResponse cfg encode w r headers policy newContent now).result
              = .ok entry) :
    hLookup entry.Response.HeaderMap cfg.StatusHeader = none := by
  unfold HandleNonCachedResponse at hres
  rcases policy with e | ⟨isCacheable, expirationTime⟩
  · simp at hres
  · cases isCacheable
    · simp only [Bool.not_false, if_true, Except.ok.injEq] at hres
      subst hres
      simp [RemoveStatusHeaderIfConfigured, hcfg, hLookup_hErase]
    · simp only [Bool.not_true, Bool.false_eq_true, if_false] at hres
      rcases hnc : newContent (getKey encode r) with e | sink <;> rw [hnc] at hres
      · simp at hres
      · simp only [Except.ok.injEq] at hres
        subst hres
        simp [RemoveStatusHeaderIfConfigured, hcfg, hLookup_hErase]

/-- Witness for C9: with status header `X-Cache-Status` configured and an
upstream snapshot carrying it, the stored snapshot of a non-cacheable miss
has it removed. -/
theorem missPath_strips_status_header_witness :
    hLookup
      ({ isPublic := false, Expiration := 7 + 3600
         Request := { HeaderMap := [] }
         Response := { HeaderMap := [("A", ["b"])], Code := 404, Body := none } }
          : HttpCacheEntry).Response.HeaderMap "X-Cache-Status" = none :=
  missPath_strips_status_header ⟨"X-Cache-Status"⟩ id
    { header := fun _ => [], status := none, body := [] }
    { Method := "GET", Host := "h", Path := "/", RawQuery := "", Header := [] }
    { StatusCode := 404, Header := [("X-Cache-Status", ["miss"]), ("A", ["b"])] }
    (.ok (false, 0)) (fun _ => .error "no sink") 7 _
    (by decide) (by rfl)

/-- C4: on a non-cacheable miss no content sink is opened, the returned
entry is private, carries the upstream status code and the stripped header
snapshot, has no body, the background task is the drain that writes to no
sink whatever the body stream carries, and the returned outcome is a
function of the headers alone (the model returns it without consuming the
body stream). -/
theorem nonCacheable_miss_behavior (cfg : Config) (encode : String → String)
    (w : RespWriter) (r : HttpRequest) (headers : UpstreamHeaders)
    (newContent : String → Except String Nat) (now t : Nat) (m : MissOutcome)
    (hm : HandleNonCachedResponse cfg encode w r headers (.ok (false, t)) newContent now = m) :
    m.newContentCalled = none ∧
    (∃ entry, m.result = .ok entry ∧ entry.isPublic = false ∧
      entry.Response.Code = headers.StatusCode ∧
      entry.Response.HeaderMap = RemoveStatusHeaderIfConfigured cfg headers.Header ∧
      entry.Response.Body = none) ∧
    m.bg = some .drain ∧
    (∀ chunks, runBg m.bg chunks = none) := by
  subst hm
  exact ⟨rfl, ⟨_, rfl, rfl, rfl, rfl, rfl⟩, rfl, fun chunks => rfl⟩

/-- Witness for C4: a concrete 404 miss ruled not cacheable opens no sink,
starts the drain, and the drain writes nothing for a concrete body. -/
theorem nonCacheable_miss_behavior_witness :
    (HandleNonCachedResponse ⟨"X-Cache-Status"⟩ id
        { header := fun _ => [], status := none, body := [] }
        { Method := "GET", Host := "h", Path := "/", RawQuery := "", Header := [] }
        { StatusCode := 404, Header := [("A", ["b"])] }
        (.ok (false, 42)) (fun _ => .error "unused") 5).newContentCalled = none ∧
    (HandleNonCachedResponse ⟨"X-Cache-Status"⟩ id
        { header := fun _ => [], status := none, body := [] }
        { Method := "GET", Host := "h", Path := "/", RawQuery := "", Header := [] }
        { StatusCode := 404, Header := [("A", ["b"])] }
        (.ok (false, 42)) (fun _ => .error "unused") 5).bg = some .drain ∧
    runBg (HandleNonCachedResponse ⟨"X-Cache-Status"⟩ id
        { header := fun _ => [], status := none, body := [] }
        { Method := "GET", Host := "h", Path := "/", RawQuery := "", Header := [] }
        { StatusCode := 404, Header := [("A", ["b"])] }
        (.ok (false, 42)) (fun _ => .error "unused") 5).bg [[1, 2], [3]] = none := by
  have h := nonCacheable_miss_behavior ⟨"X-Cache-Status"⟩ id
    { header := fun _ => [], status := none, body := [] }
    { Method := "GET", Host := "h", Path := "/", RawQuery := "", Header := [] }
    { StatusCode := 404, Header := [("A", ["b"])] }
    (fun _ => .error "unused") 5 42 _ rfl
  exact ⟨h.1, h.2.2.1, h.2.2.2 [[1, 2], [3]]⟩

/-- C5: on a cacheable miss with policy expiration `E`, a sink is opened
in the store for the request's cache key, the returned entry is public
with `Expiration = E`, the upstream status code, the stripped header
snapshot, and the sink as its body; the background pump writes exactly the
body chunks into the sink in order and closes it, while the entry itself
is a function of the headers alone. -/
theorem cacheable_miss_behavior (cfg : Config) (encode : String → String)
    (w : RespWriter) (r : HttpRequest) (headers : UpstreamHeaders)
    (newContent : String → Except String Nat) (now E sid : Nat) (m : MissOutcome)
    (hsink : newContent (getKey encode r) = .ok sid)
    (hm : HandleNonCachedResponse cfg encode w r headers (.ok (true, E)) newContent now = m) :
    m.newContentCalled = some (getKey encode r) ∧
    (∃ entry, m.result = .ok entry ∧ entry.isPublic = true ∧ entry.Expiration = E ∧
      entry.Response.Code = headers.StatusCode ∧
      entry.Response.HeaderMap = RemoveStatusHeaderIfConfigured cfg headers.Header ∧
      entry.Response.Body = some sid) ∧
    m.bg = some (.pump sid) ∧
    (∀ chunks, runBg m.bg chunks = some (sid, { content := chunks.flatten, closed := true })) := by
  subst hm
  have hred : HandleNonCachedResponse cfg encode w r headers (.ok (true, E)) newContent now
      = { writer := AddStatusHeaderIfConfigured cfg w "miss"
          result := .ok
            { isPublic := true, Expiration := E, Request := { HeaderMap := r.Header }
              Response := { HeaderMap := RemoveStatusHeaderIfConfigured cfg headers.Header
                            Code := headers.StatusCode, Body := some sid } }
          newContentCalled := some (getKey encode r)
          bg := some (.pump sid) } := by
    unfold HandleNonCachedResponse
    rw [hsink]
    rfl
  rw [hred]
  exact ⟨rfl, ⟨_, rfl, rfl, rfl, rfl, rfl, rfl⟩, rfl,
    fun chunks => by simp [runBg, pumpBody_spec]⟩

/-- Witness for C5: a concrete cacheable 200 miss opens sink 9 for the
key, starts the pump for it, and the pump persists the concrete chunks in
order and closes the sink. -/
theorem cacheable_miss_behavior_witness :
    (HandleNonCachedResponse ⟨""⟩ id
        { header := fun _ => [], status := none, body := [] }
        { Method := "GET", Host := "h", Path := "/x", RawQuery := "", Header := [] }
        { StatusCode := 200, Header := [("Content-Type", ["text/plain"])] }
        (.ok (true, 600)) (fun _ => .ok 9) 5).bg = some (.pump 9) ∧
    runBg (HandleNonCachedResponse ⟨""⟩ id
        { header := fun _ => [], status := none, body := [] }
        { Method := "GET", Host := "h", Path := "/x", RawQuery := "", Header := [] }
        { StatusCode := 200, Header := [("Content-Type", ["text/plain"])] }
        (.ok (true, 600)) (fun _ => .ok 9) 5).bg [[104, 101], [121]]
      = some (9, { content := [104, 101, 121], closed := true }) := by
  have h := cacheable_miss_behavior ⟨""⟩ id
    { header := fun _ => [], status := none, body := [] }
    { Method := "GET", Host := "h", Path := "/x", RawQuery := "", Header := [] }
    { StatusCode := 200, Header := [("Content-Type", ["text/plain"])] }
    (fun _ => .ok 9) 5 600 9 _ rfl rfl
  exact ⟨h.2.2.1, h.2.2.2 [[104, 101], [121]]⟩

/-- C3: the producer callback runs the miss path and returns its entry as
the replacement exactly when the previous entry is absent or private, runs
the hit path against the real writer and returns the no-replacement signal
(nil entry, nil error) exactly when the previous entry is public, and the
hit path only ever runs on a public entry, so a private entry is never
replayed as a cache hit. -/
theorem producerCallback_dispatch (c : ServeCtx) (previous : Option HttpCacheEntry) :
    ((previous = none ∨ ∃ p, previous = some p ∧ p.isPublic = false) →
      (producerCallback c previous).missRan = true ∧
      (producerCallback c previous).hitRan = false ∧
      (producerCallback c previous).replacement =
        (HandleNonCachedResponse c.cfg c.encode c.w0 c.r c.upstream c.policy
          c.newContent c.now).result.toOption) ∧
    (∀ p, previous = some p → p.isPublic = true →
      (producerCallback c previous).hitRan = true ∧
      (producerCallback c previous).missRan = false ∧
      (producerCallback c previous).replacement = none ∧
      (producerCallback c previous).err = none ∧
      (producerCallback c previous).status =
        (HandleCachedResponse c.cfg c.readBody
          (AddStatusHeaderIfConfigured c.cfg c.w0 "hit") p).2) ∧
    ((producerCallback c previous).hitRan = true →
      ∃ p, previous = some p ∧ p.isPublic = true) := by
  refine ⟨?_, ?_, ?_⟩
  · rintro (rfl | ⟨p, rfl, hp⟩)
    · cases hres : (HandleNonCachedResponse c.cfg c.encode c.w0 c.r c.upstream c.policy
          c.newContent c.now).result <;>
        simp [producerCallback, hres, Except.toOption]
    · cases hres : (HandleNonCachedResponse c.cfg c.encode c.w0 c.r c.upstream c.policy
          c.newContent c.now).result <;>
        simp [producerCallback, hres, hp, Except.toOption]
  · rintro p rfl hp
    simp [producerCallback, hp, HandleCachedResponse]
  · intro hhit
    match hprev : previous with
    | none =>
      cases hres : (HandleNonCachedResponse c.cfg c.encode c.w0 c.r c.upstream c.policy
          c.newContent c.now).result <;>
        simp [producerCallback, hres] at hhit
    | some p =>
      refine ⟨p, rfl, ?_⟩
      cases hpub : p.isPublic
      · cases hres : (HandleNonCachedResponse c.cfg c.encode c.w0 c.r c.upstream c.policy
            c.newContent c.now).result <;>
          simp [producerCallback, hres, hpub] at hhit
      · rfl

/-- Witness for C3: with no previous entry the miss path runs and its
entry is the replacement; applied to a concrete context whose policy says
not cacheable. -/
theorem producerCallback_dispatch_witness :
    (producerCallback
        { cfg := ⟨""⟩, encode := id, now := 0, shouldUse := true
          nextStatus := 0, nextErr := none, stored := none
          r := { Method := "GET", Host := "h", Path := "/", RawQuery := "", Header := [] }
          w0 := { header := fun _ => [], status := none, body := [] }
          upstream := { StatusCode := 404, Header := [] }
          policy := .ok (false, 0)
          newContent := fun _ => .error "unused"
          readBody := fun _ => [] } none).missRan = true := by
  have h := producerCallback_dispatch
    { cfg := ⟨""⟩, encode := id, now := 0, shouldUse := true
      nextStatus := 0, nextErr := none, stored := none
      r := { Method := "GET", Host := "h", Path := "/", RawQuery := "", Header := [] }
      w0 := { header := fun _ => [], status := none, body := [] }
      upstream := { StatusCode := 404, Header := [] }
      policy := .ok (false, 0)
      newContent := fun _ => .error "unused"
      readBody := fun _ => [] } none
  exact (h.1 (Or.inl rfl)).1

/-- C6: a cacheability-policy error or a sink-open error on the miss path
makes the producer return nil entry plus that error, which propagates
through `GetOrSet` and is returned by `ServeHTTP` with the
internal-error status code 500, and the store's value is unchanged. -/
theorem serveHTTP_miss_error (c : ServeCtx) (e : String)
    (huse : c.shouldUse = true)
    (hprev : c.stored = none ∨
      ∃ p, c.stored = some p ∧ (matchesRequest c.r p = false ∨ p.isPublic = false))
    (herr : c.policy = .error e ∨
      ∃ E, c.policy = .ok (true, E) ∧ c.newContent (getKey c.encode c.r) = .error e) :
    (ServeHTTP c).err = some e ∧ (ServeHTTP c).status = 500 ∧
    (ServeHTTP c).replacement = none ∧ (ServeHTTP c).storedAfter = c.stored := by
  have hres : (HandleNonCachedResponse c.cfg c.encode c.w0 c.r c.upstream c.policy
      c.newContent c.now).result = .error e := by
    rcases herr with h | ⟨E, hp, hn⟩
    · simp [HandleNonCachedResponse, h]
    · simp [HandleNonCachedResponse, hp, hn]
  rcases hprev with hst | ⟨p, hst, hcase⟩
  · simp [ServeHTTP, huse, GetOrSet, hst, producerCallback, hres]
  · rcases hcase with hm2 | hpriv
    · simp [ServeHTTP, huse, GetOrSet, hst, hm2, producerCallback, hres]
    · by_cases hm2 : matchesRequest c.r p = true
      · simp [ServeHTTP, huse, GetOrSet, hst, hm2, producerCallback, hpriv, hres]
      · simp [ServeHTTP, huse, GetOrSet, hst, hm2, producerCallback, hres]

/-- Witness for C6: a concrete policy failure surfaces as the call's error
with status 500 and no replacement stored. -/
theorem serveHTTP_miss_error_witness :
    (ServeHTTP
        { cfg := ⟨""⟩, encode := id, now := 0, shouldUse := true
          nextStatus := 0, nextErr := none, stored := none
          r := { Method := "GET", Host := "h", Path := "/", RawQuery := "", Header := [] }
          w0 := { header := fun _ => [], status := none, body := [] }
          upstream := { StatusCode := 200, Header := [] }
          policy := .error "policy broke"
          newContent := fun _ => .ok 1
          readBody := fun _ => [] }).err = some "policy broke" ∧
    (ServeHTTP
        { cfg := ⟨""⟩, encode := id, now := 0, shouldUse := true
          nextStatus := 0, nextErr := none, stored := none
          r := { Method := "GET", Host := "h", Path := "/", RawQuery := "", Header := [] }
          w0 := { header := fun _ => [], status := none, body := [] }
          upstream := { StatusCode := 200, Header := [] }
          policy := .error "policy broke"
          newContent := fun _ => .ok 1
          readBody := fun _ => [] }).status = 500 := by
  have h := serveHTTP_miss_error
    { cfg := ⟨""⟩, encode := id, now := 0, shouldUse := true
      nextStatus := 0, nextErr := none, stored := none
      r := { Method := "GET", Host := "h", Path := "/", RawQuery := "", Header := [] }
      w0 := { header := fun _ => [], status := none, body := [] }
      upstream := { StatusCode := 200, Header := [] }
      policy := .error "policy broke"
      newContent := fun _ => .ok 1
      readBody := fun _ => [] } "policy broke" rfl (Or.inl rfl) (Or.inl rfl)
  exact ⟨h.1, h.2.1⟩

/-- C7: on a cache hit the hit path appends, for every header name, the
stored entry's full ordered value list onto the real response's values,
writes the stored status code, copies the full stored body from a fresh
reader when present (and leaves the body alone otherwise), and its
returned code is the stored code, which `ServeHTTP` reports as its status. -/
theorem serveHTTP_hit_replay (c : ServeCtx) (p : HttpCacheEntry)
    (huse : c.shouldUse = true) (hst : c.stored = some p)
    (hmatch : matchesRequest c.r p = true) (hpub : p.isPublic = true)
    (hnd : (p.Response.HeaderMap.map Prod.fst).Nodup) :
    (∀ k, (ServeHTTP c).writer.header k =
      (AddStatusHeaderIfConfigured c.cfg c.w0 "hit").header k ++
        (hLookup p.Response.HeaderMap k).getD []) ∧
    (ServeHTTP c).writer.status = some p.Response.Code ∧
    (∀ b, p.Response.Body = some b →
      (ServeHTTP c).writer.body = c.w0.body ++ c.readBody b) ∧
    (p.Response.Body = none → (ServeHTTP c).writer.body = c.w0.body) ∧
    (ServeHTTP c).status = p.Response.Code := by
  have hw : (ServeHTTP c).writer =
      (HandleCachedResponse c.cfg c.readBody
        (AddStatusHeaderIfConfigured c.cfg c.w0 "hit") p).1 := by
    simp [ServeHTTP, huse, GetOrSet, hst, hmatch, producerCallback, hpub]
  have hs : (ServeHTTP c).status = p.Response.Code := by
    simp [ServeHTTP, huse, GetOrSet, hst, hmatch, producerCallback, hpub,
      HandleCachedResponse]
  have hmarked := addStatus_header_idem c.cfg c.w0 "hit"
  refine ⟨?_, ?_, ?_, ?_, hs⟩
  · intro k
    rw [hw]
    unfold HandleCachedResponse
    rw [hmarked]
    cases hbody : p.Response.Body <;>
      simp [replayHeaders_apply p.Response.HeaderMap _ k hnd, hbody]
  · rw [hw]
    unfold HandleCachedResponse
    cases hbody : p.Response.Body <;> simp [hbody]
  · intro b hbody
    rw [hw]
    unfold HandleCachedResponse
    rw [hmarked]
    simp [hbody, addStatus_body]
  · intro hbody
    rw [hw]
    unfold HandleCachedResponse
    rw [hmarked]
    simp [hbody, addStatus_body]

/-- Witness for C7: replaying a concrete stored entry with two
`Set-Cookie` values onto an empty writer yields exactly those values in
order, the stored code 203 is written and reported. -/
theorem serveHTTP_hit_replay_witness :
    (ServeHTTP
        { cfg := ⟨""⟩, encode := id, now := 0, shouldUse := true
          nextStatus := 0, nextErr := none
          stored := some
            { isPublic := true, Expiration := 99
              Request := { HeaderMap := [] }
              Response := { HeaderMap := [("Set-Cookie", ["a=1", "b=2"]), ("X", ["y"])]
                            Code := 203, Body := some 4 } }
          r := { Method := "GET", Host := "h", Path := "/", RawQuery := "", Header := [] }
          w0 := { header := fun _ => [], status := none, body := [] }
          upstream := { StatusCode := 200, Header := [] }
          policy := .ok (true, 0)
          newContent := fun _ => .ok 1
          readBody := fun _ => [7, 8] }).writer.header "Set-Cookie" = ["a=1", "b=2"] ∧
    (ServeHTTP
        { cfg := ⟨""⟩, encode := id, now := 0, shouldUse := true
          nextStatus := 0, nextErr := none
          stored := some
            { isPublic := true, Expiration := 99
              Request := { HeaderMap := [] }
              Response := { HeaderMap := [("Set-Cookie", ["a=1", "b=2"]), ("X", ["y"])]
                            Code := 203, Body := some 4 } }
          r := { Method := "GET", Host := "h", Path := "/", RawQuery := "", Header := [] }
          w0 := { header := fun _ => [], status := none, body := [] }
          upstream := { StatusCode := 200, Header := [] }
          policy := .ok (true, 0)
          newContent := fun _ => .ok 1
          readBody := fun _ => [7, 8] }).status = 203 := by
  have h := serveHTTP_hit_replay
    { cfg := ⟨""⟩, encode := id, now := 0, shouldUse := true
      nextStatus := 0, nextErr := none
      stored := some
        { isPublic := true, Expiration := 99
          Request := { HeaderMap := [] }
          Response := { HeaderMap := [("Set-Cookie", ["a=1", "b=2"]), ("X", ["y"])]
                        Code := 203, Body := some 4 } }
      r := { Method := "GET", Host := "h", Path := "/", RawQuery := "", Header := [] }
      w0 := { header := fun _ => [], status := none, body := [] }
      upstream := { StatusCode := 200, Header := [] }
      policy := .ok (true, 0)
      newContent := fun _ => .ok 1
      readBody := fun _ => [7, 8] }
    { isPublic := true, Expiration := 99
      Request := { HeaderMap := [] }
      Response := { HeaderMap := [("Set-Cookie", ["a=1", "b=2"]), ("X", ["y"])]
                    Code := 203, Body := some 4 } }
    rfl rfl (by decide) rfl (by decide)
  refine ⟨?_, h.2.2.2.2⟩
  rw [h.1 "Set-Cookie"]
  rfl

/-- C2, counterexample: nothing in the synchronisation structure orders
the pump's `bodyWriter.Close()` before `ServeHTTP`'s return — the end
signal is sent as soon as `pipe.handle()` returns, concurrently with the
pump's tail — so the claim that the awaited signal fires only after the
background pump has finished does not hold of the code. -/
theorem endSignal_races_with_pump : ¬ hb Ev.sinkClosed Ev.serveRet := by
  have hout : ∀ x, evEdge Ev.sinkClosed x = false := by
    intro x
    cases x <;> rfl
  have key : ∀ b, hb Ev.sinkClosed b → b = Ev.sinkClosed := by
    intro b h
    induction h with
    | refl => rfl
    | tail _ h2 ih =>
      rw [ih, hout] at h2
      exact Bool.noConfusion h2
  intro h
  exact Ev.noConfusion (key _ h)

/-- C2, amended: after the store call, `ServeHTTP` blocks on the recorded
end signal, which fires only after the responder invocation
`pipe.handle()` has returned (hence after the body event stream has
closed); the background pump's final writes and its closing of the sink
are not ordered before `ServeHTTP`'s return. -/
theorem endSignal_after_responder_return :
    hb Ev.handleRet Ev.serveRet ∧ hb Ev.bodyChanClosed Ev.serveRet := by
  have e0 : evEdge Ev.bodyChanClosed Ev.handleRet = true := by decide
  have e1 : evEdge Ev.handleRet Ev.endSend = true := by decide
  have e2 : evEdge Ev.endSend Ev.endRecv = true := by decide
  have e3 : evEdge Ev.endRecv Ev.serveRet = true := by decide
  have h1 : hb Ev.handleRet Ev.serveRet :=
    Relation.ReflTransGen.head e1
      (Relation.ReflTransGen.head e2 (Relation.ReflTransGen.single e3))
  exact ⟨h1, Relation.ReflTransGen.head e0 h1⟩

end CaddyCache
